import Mathlib

/-!
Shallow embedding of `usrp3/tools/scripts/make.py` (RFNoC instantiation-file
generator) and proofs about it.

Modelling conventions:
* Python strings are Lean `String`s; `str(n)` for a Python `int` is `Nat.repr` /
  `toString`.
* The `Makefile.srcs` files touched by `append_item_into_file` are modelled as
  lists of lines (`List String`); the anchor patterns searched with
  `re.findall` (`'$(addprefix <dir>, \'` and `'RFNOC_OOT_SRCS = \'`, each
  followed by a line break) are single lines, and Python's
  `oldfile.replace(last_line, last_line + srcs)` — which replaces every
  occurrence of the matched line — becomes `replaceLine`, splicing the new
  lines after each occurrence of the anchor line.
* `argparse` results are the `Args` structure; `--max-num-blocks` has Python
  type `int`, modelled as `Int`.
* Effects (file reads, `glob`, `os.system`, directories) are inputs in a
  `World` record; a whole run of `main` is `mainModel`, producing a
  `RunOutcome` (exit code, the generated-file write, the final content of the
  destination `Makefile.srcs`, the final working directory, the error message
  if any).  `exit(n)` in Python terminates the process: it is modelled by the
  early-return structure of `mainModel`.  A Python exception that would escape
  `main` (a `KeyError` from a dict lookup, the unbound `ret_val` when the
  build directory is missing) is modelled as `exitCode = none`.
* `os.system` and `exit` follow their POSIX/CPython semantics: for an
  external command terminating normally with exit status `s`
  (`World.cmdStatus`), `os.system` returns the `wait()`-encoded status
  `(s % 256) * 256` (`os_system_ret`), and `exit(n)` for an `int` ends the
  process with status `n % 256` (`exit_trunc`) — so a nonzero command status
  reaches the process exit status as 0.
-/

namespace RfnocMake

/-- Command-line arguments, as produced by `setup_parser` in make.py. -/
structure Args where
  include_dir : Option (List String)
  max_num_blocks : Int
  fill_with_fifos : Bool
  outfile : Option String
  device : String
  target : Option String
  GUI : Bool
  blocks : List String

/-- `HEADER_TMPL` of make.py with `{num_ce}` substituted. -/
def HEADER_TMPL (num_ce : Int) : String :=
  "/////////////////////////////////////////////////////////\n// Auto-generated by gen_rfnoc_inst.py! Any changes\n// in this file will be overwritten the next time\n// this script is run.\n/////////////////////////////////////////////////////////\nlocalparam NUM_CE = " ++ toString num_ce ++ ";\nwire [NUM_CE*64-1:0] ce_flat_o_tdata, ce_flat_i_tdata;\nwire [63:0]          ce_o_tdata[0:NUM_CE-1], ce_i_tdata[0:NUM_CE-1];\nwire [NUM_CE-1:0]    ce_o_tlast, ce_o_tvalid, ce_o_tready, ce_i_tlast, ce_i_tvalid, ce_i_tready;\nwire [63:0]          ce_debug[0:NUM_CE-1];\n// Flattern CE tdata arrays\ngenvar k;\ngenerate\n  for (k = 0; k < NUM_CE; k = k + 1) begin\n    assign ce_o_tdata[k] = ce_flat_o_tdata[k*64+63:k*64];\n    assign ce_flat_i_tdata[k*64+63:k*64] = ce_i_tdata[k];\n  end\nendgenerate\nwire ce_clk = radio_clk;\nwire ce_rst = radio_rst;\n"

/-- `BLOCK_TMPL` of make.py with `{blockname}`, `{instname}` and `{n}` substituted. -/
def BLOCK_TMPL (blockname instname : String) (n : Nat) : String :=
  "\nnoc_block_" ++ blockname ++ " " ++ instname ++ " (\n  .bus_clk(bus_clk), .bus_rst(bus_rst),\n  .ce_clk(ce_clk), .ce_rst(ce_rst),\n  .i_tdata(ce_o_tdata[" ++ Nat.repr n ++ "]), .i_tlast(ce_o_tlast[" ++ Nat.repr n ++ "]), .i_tvalid(ce_o_tvalid[" ++ Nat.repr n ++ "]), .i_tready(ce_o_tready[" ++ Nat.repr n ++ "]),\n  .o_tdata(ce_i_tdata[" ++ Nat.repr n ++ "]), .o_tlast(ce_i_tlast[" ++ Nat.repr n ++ "]), .o_tvalid(ce_i_tvalid[" ++ Nat.repr n ++ "]), .o_tready(ce_i_tready[" ++ Nat.repr n ++ "]),\n  .debug(ce_debug[" ++ Nat.repr n ++ "])\n);\n"

/-- `FILL_FIFO_TMPL` of make.py with `{fifo_start}` substituted. -/
def FILL_FIFO_TMPL (fifo_start : Nat) : String :=
  "\n// Fill remaining crossbar ports with loopback FIFOs\ngenvar n;\ngenerate\n  for (n = " ++ Nat.repr fifo_start ++ "; n < NUM_CE; n = n + 1) begin\n    noc_block_axi_fifo_loopback inst_noc_block_axi_fifo_loopback (\n      .bus_clk(bus_clk), .bus_rst(bus_rst),\n      .ce_clk(ce_clk), .ce_rst(ce_rst),\n      .i_tdata(ce_o_tdata[n]), .i_tlast(ce_o_tlast[n]), .i_tvalid(ce_o_tvalid[n]), .i_tready(ce_o_tready[n]),\n      .o_tdata(ce_i_tdata[n]), .o_tlast(ce_i_tlast[n]), .o_tvalid(ce_i_tvalid[n]), .o_tready(ce_i_tready[n]),\n      .debug(ce_debug[n])\n    );\n  end\nendgenerate\n"

/-- Instance name for the `c`-th occurrence of `block`:
Python `"inst_{}{}".format(block, "" if block_count[block] == 1 else block_count[block])`. -/
def mkInst (block : String) (c : Nat) : String :=
  "inst_" ++ block ++ (if c = 1 then "" else Nat.repr c)

/-- The per-iteration instance names produced by the loop in `create_vfiles`:
`counts` is the running `block_count` dictionary (all keys start at 0 in the
source, via `{k: 0 for k in set(blocks)}`), incremented before it is read. -/
def instNamesAux (counts : String → Nat) : List String → List String
  | [] => []
  | b :: bs =>
    let c := counts b + 1
    mkInst b c :: instNamesAux (fun k => if k = b then c else counts k) bs

/-- Instance names for a whole block list, counters starting at zero. -/
def instNames (blocks : List String) : List String :=
  instNamesAux (fun _ => 0) blocks

/-- The successive `BLOCK_TMPL.format(...)` strings appended to `vfile` by the
`for i, block in enumerate(blocks)` loop of `create_vfiles`; `i` is the running
`enumerate` index. -/
def blockInstsAux (counts : String → Nat) (i : Nat) : List String → List String
  | [] => []
  | b :: bs =>
    let c := counts b + 1
    BLOCK_TMPL b (mkInst b c) i :: blockInstsAux (fun k => if k = b then c else counts k) (i + 1) bs

/-- All instantiation-block strings for a block list. -/
def blockInsts (blocks : List String) : List String :=
  blockInstsAux (fun _ => 0) 0 blocks

/-- `create_vfiles` of make.py.  `Except.error msg` models `print(msg)` followed
by `exit(1)`. -/
def create_vfiles (args : Args) : Except String String :=
  let blocks := args.blocks
  if blocks.length = 0 then
    Except.error "[GEN_RFNOC_INST ERROR] No blocks specified!"
  else if (blocks.length : Int) > args.max_num_blocks then
    Except.error ("[GEN_RFNOC_INST ERROR] Trying to connect " ++ Nat.repr blocks.length ++
      " blocks, max is " ++ toString args.max_num_blocks)
  else
    let num_ce : Int := if args.fill_with_fifos then args.max_num_blocks else (blocks.length : Int)
    let vfile := HEADER_TMPL num_ce ++ String.join (blockInsts blocks)
    let vfile := if args.fill_with_fifos then vfile ++ FILL_FIFO_TMPL blocks.length else vfile
    Except.ok vfile

/-- `device_dict` of make.py; `none` models the `KeyError` a Python dict lookup
raises on a missing key. -/
def device_dict (dev : String) : Option String :=
  List.lookup dev [("x300", "x300"), ("x310", "x300"), ("e300", "e300"), ("e310", "e300")]

/-- The `default_trgt` dictionary inside `dtarget`. -/
def default_trgt : List (String × String) :=
  [("x300", "X300_RFNOC_HG"), ("x310", "X310_RFNOC_HG"), ("e310", "E310_RFNOC_HLS")]

/-- `dtarget` of make.py; `none` models a `KeyError` in the default-target
lookup (only reachable when `args.target` is `None`). -/
def dtarget (args : Args) : Option String :=
  match args.target with
  | none => List.lookup args.device default_trgt
  | some t => some t

/-- `checkdir_v` of make.py, taking the result of `glob.glob(include_dir+'*.v')`
as input.  `Except.error c` models `print(...)` followed by `exit(c)`; note the
source calls `exit(0)` here. -/
def checkdir_v (globbed : List String) : Except Nat Unit :=
  if globbed.length = 0 then Except.error 0 else Except.ok ()

/-- Python `str.lower()` restricted to the ASCII device names used here. -/
def strLower (s : String) : String :=
  ⟨s.data.map Char.toLower⟩

/-- The line matched by `prefixpattern = re.escape('$(addprefix ' + dirs + ', \\\n')`. -/
def dirAnchor (d : String) : String :=
  "$(addprefix " ++ d ++ ", \\"

/-- The line matched by `linepattern = re.escape('RFNOC_OOT_SRCS = \\\n')`. -/
def srcsAnchor : String :=
  "RFNOC_OOT_SRCS = \\"

/-- `compare` of make.py: the lines of `text1` not found in `text2`. -/
def compare (text1 text2 : List String) : List String :=
  text1.filter (fun item => ! text2.contains item)

/-- Line-level model of `oldfile.replace(last_line, last_line + srcs)`:
Python `str.replace` replaces every occurrence, so the `ins` lines are spliced
in after each occurrence of the `anchor` line (the replacement text is not
rescanned). -/
def replaceLine (anchor : String) (ins : List String) : List String → List String
  | [] => []
  | l :: ls =>
    if l = anchor then l :: (ins ++ replaceLine anchor ins ls)
    else l :: replaceLine anchor ins ls

/-- The per-include-directory body of `append_item_into_file`: patch the
destination `Makefile.srcs` lines `dest` using the OOT `Makefile.srcs` lines
`oot` of directory `d`.  If the `$(addprefix d, \` anchor occurs, splice in the
lines of `oot` missing from `dest` after it; otherwise, if the
`RFNOC_OOT_SRCS = \` anchor occurs, splice in all lines of `oot` after it;
otherwise print a message and leave the file unchanged. -/
def append_one (d : String) (oot dest : List String) : List String :=
  if dest.countP (fun l => l == dirAnchor d) ≠ 0 then
    replaceLine (dirAnchor d) (compare oot dest) dest
  else if dest.countP (fun l => l == srcsAnchor) = 0 then
    dest
  else
    replaceLine srcsAnchor oot dest

/-- POSIX semantics of `os.system`: for a shell command terminating normally
with exit status `s`, the return value is the `wait()`-encoded status — the
exit status (truncated to its low byte) in bits 8..15, a zero signal byte
below. -/
def os_system_ret (cmdStatus : Nat) : Nat :=
  cmdStatus % 256 * 256

/-- CPython semantics of `exit(n)` for an `int` argument: the value is passed
to the C `exit`, so the process status is `n` modulo 256. -/
def exit_trunc (n : Nat) : Nat :=
  n % 256

/-- The external inputs of one run of make.py.  `cmdStatus` is the exit status
of the external build command, assumed to terminate normally. -/
structure World where
  destLines : List String
  ootLines : String → List String
  globVerilog : String → List String
  buildDirExists : Bool
  cmdStatus : Nat
  scriptpath : String
  startCwd : String

/-- The path `file_generator` writes to when no `-o` is given. -/
def file_generator_path (w : World) (args : Args) (tdir : String) : String :=
  w.scriptpath ++ "/../../top/" ++ tdir ++ "/rfnoc_ce_auto_inst_" ++ args.device ++ ".v"

/-- `file_generator` of make.py: the (path, content) pair written, or `none`
when `device_dict(args.device.lower())` raises a `KeyError`. -/
def file_generator (w : World) (args : Args) (vfile : String) : Option (String × String) :=
  match device_dict (strLower args.device) with
  | none => none
  | some tdir =>
    match args.outfile with
    | none => some (file_generator_path w args tdir, vfile)
    | some o => some (o, vfile)

/-- The loop over `args.include_dir` in `append_item_into_file`: for each
directory, `checkdir_v` first (its `exit(0)` on an empty glob stops the whole
process, keeping the writes already made), then patch the destination lines.
Returns the final destination content and the exit code if `checkdir_v`
terminated the process. -/
def append_item_loop (w : World) (dirs : List String) (dest : List String) :
    List String × Option Nat :=
  match dirs with
  | [] => (dest, none)
  | d :: rest =>
    if (w.globVerilog d).length = 0 then (dest, some 0)
    else append_item_loop w rest (append_one d (w.ootLines d) dest)

/-- `append_item_into_file` of make.py: `none` models the `KeyError` of
`device_dict`; otherwise the final destination `Makefile.srcs` content plus the
exit code of a mid-loop `checkdir_v` termination, if any. -/
def append_item_into_file (w : World) (args : Args) : Option (List String × Option Nat) :=
  match device_dict (strLower args.device) with
  | none => none
  | some _ =>
    match args.include_dir with
    | none => some (w.destLines, none)
    | some dirs => some (append_item_loop w dirs w.destLines)

/-- Result of the `build` function of make.py. -/
inductive BuildOutcome where
  /-- `os.path.isdir(build_dir)` was false: `return ret_val` then raises
  `UnboundLocalError`. -/
  | crashMissingDir : BuildOutcome
  /-- `dtarget` raised a `KeyError` after `os.chdir(build_dir)`; the argument
  is the working directory at that moment. -/
  | crashKeyError : String → BuildOutcome
  /-- Normal run: directory changed into, command passed to `os.system`,
  working directory after `os.chdir(cwd)`, and `ret_val` — the
  `wait()`-encoded value `os.system` returned. -/
  | ran : String → String → String → Nat → BuildOutcome

/-- `build` of make.py.  Note `cwd = get_scriptpath()` in the source: the
directory restored afterwards is the script's own directory, not the process's
working directory before the call. -/
def build (w : World) (args : Args) (tdir : String) : BuildOutcome :=
  if w.buildDirExists then
    let build_dir := w.scriptpath ++ "/../../top/" ++ tdir
    match dtarget args with
    | none => BuildOutcome.crashKeyError build_dir
    | some t =>
      let make_cmd := "source ./setupenv.sh && make " ++ t
      let make_cmd := if args.GUI then make_cmd ++ " GUI=1" else make_cmd
      BuildOutcome.ran build_dir make_cmd w.scriptpath (os_system_ret w.cmdStatus)
  else BuildOutcome.crashMissingDir

/-- Observable outcome of one run of `main`. -/
structure RunOutcome where
  /-- Exit status of the process; `none` models an uncaught exception. -/
  exitCode : Option Nat
  /-- The (path, content) write of the generated instantiation file, if reached. -/
  outWrite : Option (String × String)
  /-- Final content of the destination `Makefile.srcs`. -/
  destLines : List String
  /-- Final working directory of the process. -/
  finalCwd : String
  /-- The error message printed by a `create_vfiles` validation failure, if any. -/
  errMsg : Option String

/-- `main` of make.py: `create_vfiles`, then `file_generator`, then
`append_item_into_file`, then — only when no `-o` outfile was given —
`build`, whose `os.system` return value, truncated mod 256 by
`exit(main())`, becomes the process exit status.  The literal exit arguments
0 and 1 of the other paths are below 256, where `exit`'s truncation is the
identity. -/
def mainModel (w : World) (args : Args) : RunOutcome :=
  match create_vfiles args with
  | Except.error msg => ⟨some 1, none, w.destLines, w.startCwd, some msg⟩
  | Except.ok vfile =>
    match file_generator w args vfile with
    | none => ⟨none, none, w.destLines, w.startCwd, none⟩
    | some write =>
      match append_item_into_file w args with
      | none => ⟨none, some write, w.destLines, w.startCwd, none⟩
      | some (dest, some c) => ⟨some c, some write, dest, w.startCwd, none⟩
      | some (dest, none) =>
        match args.outfile with
        | some _ => ⟨some 0, some write, dest, w.startCwd, none⟩
        | none =>
          match device_dict (strLower args.device) with
          | none => ⟨none, some write, dest, w.startCwd, none⟩
          | some tdir =>
            match build w args tdir with
            | BuildOutcome.crashMissingDir => ⟨none, some write, dest, w.startCwd, none⟩
            | BuildOutcome.crashKeyError cwdAt => ⟨none, some write, dest, cwdAt, none⟩
            | BuildOutcome.ran _ _ fcwd ret => ⟨some (exit_trunc ret), some write, dest, fcwd, none⟩

/-- Spec-level rendering of the instantiation blocks: entry `i` substituted
with its block name, the occurrence-counted instance name, and slot index `i`. -/
def specBlocks (blocks : List String) : List String :=
  blocks.enum.map (fun p => BLOCK_TMPL p.2 (mkInst p.2 ((blocks.take (p.1 + 1)).count p.2)) p.1)

/-- Whether a string ends with a decimal digit. -/
def endsInDigit (s : String) : Bool :=
  (s.data.getLast?.map Char.isDigit).getD false

/-- Numeric value of a decimal digit character. -/
def charVal (c : Char) : Nat := c.toNat - 48

/-- Value of a decimal digit string, most significant digit first. -/
def digitsVal (l : List Char) : Nat :=
  l.foldl (fun a c => 10 * a + charVal c) 0

/-! ### Facts about `Nat.repr`: its characters are digits, it is nonempty and injective -/

lemma foldl_digit_step (l : List Char) :
    ∀ a : Nat, l.foldl (fun a c => 10 * a + charVal c) a = a * 10 ^ l.length + digitsVal l := by
  induction l with
  | nil => intro a; simp [digitsVal]
  | cons c l ih =>
    intro a
    have hv : digitsVal (c :: l) = charVal c * 10 ^ l.length + digitsVal l := by
      simp only [digitsVal, List.foldl_cons]
      rw [ih (10 * 0 + charVal c)]
      simp only [digitsVal]
      ring
    simp only [List.foldl_cons, List.length_cons]
    rw [ih (10 * a + charVal c), hv]
    ring

lemma charVal_digitChar (m : Nat) (h : m < 10) : charVal (Nat.digitChar m) = m := by
  interval_cases m <;> rfl

lemma isDigit_digitChar (m : Nat) (h : m < 10) : (Nat.digitChar m).isDigit = true := by
  interval_cases m <;> decide

lemma toDigitsCore_val :
    ∀ (fuel n : Nat) (ds : List Char), n < 10 ^ fuel →
      digitsVal (Nat.toDigitsCore 10 fuel n ds) = n * 10 ^ ds.length + digitsVal ds := by
  intro fuel
  induction fuel with
  | zero =>
    intro n ds h
    simp only [pow_zero, Nat.lt_one_iff] at h
    subst h
    simp [Nat.toDigitsCore]
  | succ fuel ih =>
    intro n ds h
    have hmod : charVal (Nat.digitChar (n % 10)) = n % 10 :=
      charVal_digitChar _ (Nat.mod_lt _ (by norm_num))
    have hcons : ∀ t : List Char,
        digitsVal (Nat.digitChar (n % 10) :: t) = (n % 10) * 10 ^ t.length + digitsVal t := by
      intro t
      simp only [digitsVal, List.foldl_cons]
      rw [foldl_digit_step, hmod]
      simp only [digitsVal]
      ring
    by_cases hdiv : n / 10 = 0
    · have hn : n % 10 = n := by omega
      simp only [Nat.toDigitsCore, hdiv, if_true]
      rw [hcons, hn]
    · have hlt : n / 10 < 10 ^ fuel := by
        rw [Nat.div_lt_iff_lt_mul (by norm_num)]
        calc n < 10 ^ (fuel + 1) := h
        _ = 10 ^ fuel * 10 := by ring
      simp only [Nat.toDigitsCore, hdiv, if_false]
      rw [ih (n / 10) (Nat.digitChar (n % 10) :: ds) hlt, hcons, List.length_cons]
      have hd := Nat.div_add_mod n 10
      calc n / 10 * 10 ^ (ds.length + 1) + ((n % 10) * 10 ^ ds.length + digitsVal ds)
          = (10 * (n / 10) + n % 10) * 10 ^ ds.length + digitsVal ds := by ring
      _ = n * 10 ^ ds.length + digitsVal ds := by rw [hd]

lemma toDigitsCore_digits :
    ∀ (fuel n : Nat) (ds : List Char), (∀ c ∈ ds, c.isDigit = true) →
      ∀ c ∈ Nat.toDigitsCore 10 fuel n ds, c.isDigit = true := by
  intro fuel
  induction fuel with
  | zero => intro n ds h; simpa [Nat.toDigitsCore] using h
  | succ fuel ih =>
    intro n ds h c hc
    have hd : ∀ x ∈ Nat.digitChar (n % 10) :: ds, x.isDigit = true := by
      intro x hx
      rcases List.mem_cons.mp hx with rfl | hx
      · exact isDigit_digitChar _ (Nat.mod_lt _ (by norm_num))
      · exact h x hx
    by_cases hdiv : n / 10 = 0
    · simp only [Nat.toDigitsCore, hdiv, if_true] at hc
      exact hd c hc
    · simp only [Nat.toDigitsCore, hdiv, if_false] at hc
      exact ih (n / 10) (Nat.digitChar (n % 10) :: ds) hd c hc

lemma toDigitsCore_length_le :
    ∀ (fuel n : Nat) (ds : List Char), ds.length ≤ (Nat.toDigitsCore 10 fuel n ds).length := by
  intro fuel
  induction fuel with
  | zero => intro n ds; simp [Nat.toDigitsCore]
  | succ fuel ih =>
    intro n ds
    by_cases hdiv : n / 10 = 0
    · simp [Nat.toDigitsCore, hdiv]
    · simp only [Nat.toDigitsCore, hdiv, if_false]
      calc ds.length ≤ (Nat.digitChar (n % 10) :: ds).length := by simp
      _ ≤ _ := ih (n / 10) _

lemma repr_data_eq (n : Nat) : (Nat.repr n).data = Nat.toDigitsCore 10 (n + 1) n [] := rfl

lemma toDigitsCore_ne_nil (fuel n : Nat) (ds : List Char) :
    Nat.toDigitsCore 10 (fuel + 1) n ds ≠ [] := by
  by_cases hdiv : n / 10 = 0
  · simp [Nat.toDigitsCore, hdiv]
  · simp only [Nat.toDigitsCore, hdiv, if_false]
    intro h
    have hle := toDigitsCore_length_le fuel (n / 10) (Nat.digitChar (n % 10) :: ds)
    rw [h] at hle
    simp at hle

lemma repr_data_ne_nil (n : Nat) : (Nat.repr n).data ≠ [] := by
  rw [repr_data_eq]
  exact toDigitsCore_ne_nil n n []

lemma repr_digits (n : Nat) : ∀ c ∈ (Nat.repr n).data, c.isDigit = true := by
  rw [repr_data_eq]
  exact toDigitsCore_digits (n + 1) n [] (by simp)

lemma repr_val (n : Nat) : digitsVal (Nat.repr n).data = n := by
  rw [repr_data_eq]
  have h : n < 10 ^ (n + 1) := by
    calc n < 10 ^ n := Nat.lt_pow_self (by norm_num) n
    _ ≤ 10 ^ (n + 1) := Nat.pow_le_pow_right (by norm_num) (Nat.le_succ n)
  rw [toDigitsCore_val (n + 1) n [] h]
  simp [digitsVal]

lemma repr_injective {m n : Nat} (h : Nat.repr m = Nat.repr n) : m = n := by
  have := congrArg (fun s => digitsVal s.data) h
  simpa [repr_val] using this

/-! ### A string not ending in a digit followed by a digit string decomposes uniquely -/

lemma digit_head_split :
    ∀ (u p v q : List Char),
      (∀ c ∈ u, c.isDigit = true) → (∀ c ∈ v, c.isDigit = true) →
      (∀ c, p.head? = some c → c.isDigit = false) →
      (∀ c, q.head? = some c → c.isDigit = false) →
      u ++ p = v ++ q → u = v ∧ p = q := by
  intro u
  induction u with
  | nil =>
    intro p v q _ hv hp _ h
    cases v with
    | nil => exact ⟨rfl, by simpa using h⟩
    | cons b v' =>
      exfalso
      simp only [List.nil_append, List.cons_append] at h
      have hb : b.isDigit = true := hv b (List.mem_cons_self b v')
      have hb' : b.isDigit = false := hp b (by rw [h]; rfl)
      simp [hb'] at hb
  | cons a u' ih =>
    intro p v q hu hv hp hq h
    cases v with
    | nil =>
      exfalso
      simp only [List.cons_append, List.nil_append] at h
      have ha : a.isDigit = true := hu a (List.mem_cons_self a u')
      have ha' : a.isDigit = false := hq a (by rw [← h]; rfl)
      simp [ha'] at ha
    | cons b v' =>
      simp only [List.cons_append, List.cons.injEq] at h
      obtain ⟨rfl, h'⟩ := h
      obtain ⟨h1, h2⟩ := ih p v' q (fun c hc => hu c (List.mem_cons_of_mem _ hc))
        (fun c hc => hv c (List.mem_cons_of_mem _ hc)) hp hq h'
      exact ⟨by rw [h1], h2⟩

lemma append_digit_cancel (a x b y : List Char)
    (ha : ∀ c ∈ a.getLast?, c.isDigit = false) (hb : ∀ c ∈ b.getLast?, c.isDigit = false)
    (hx : ∀ c ∈ x, c.isDigit = true) (hy : ∀ c ∈ y, c.isDigit = true)
    (h : a ++ x = b ++ y) : a = b ∧ x = y := by
  have hr : x.reverse ++ a.reverse = y.reverse ++ b.reverse := by
    rw [← List.reverse_append, ← List.reverse_append, h]
  obtain ⟨h1, h2⟩ := digit_head_split x.reverse a.reverse y.reverse b.reverse
    (fun c hc => hx c (List.mem_reverse.mp hc))
    (fun c hc => hy c (List.mem_reverse.mp hc))
    (fun c hc => ha c (by rw [Option.mem_def, ← List.head?_reverse]; exact hc))
    (fun c hc => hb c (by rw [Option.mem_def, ← List.head?_reverse]; exact hc))
    hr
  constructor
  · rw [← List.reverse_reverse a, h2, List.reverse_reverse]
  · rw [← List.reverse_reverse x, h1, List.reverse_reverse]

/-! ### Injectivity of the generated instance names -/

lemma endsInDigit_getLast {s : String} (h : endsInDigit s = false) :
    ∀ c ∈ s.data.getLast?, c.isDigit = false := by
  intro c hc
  rw [Option.mem_def] at hc
  rw [endsInDigit, hc] at h
  simpa using h

lemma sfx_digits (k : Nat) :
    ∀ c ∈ (if k = 1 then "" else Nat.repr k).data, c.isDigit = true := by
  intro c hc
  by_cases hk : k = 1
  · simp [hk] at hc
  · rw [if_neg hk] at hc
    exact repr_digits k c hc

lemma mkInst_inj {b1 b2 : String} {k1 k2 : Nat}
    (h1 : endsInDigit b1 = false) (h2 : endsInDigit b2 = false)
    (e : mkInst b1 k1 = mkInst b2 k2) : b1 = b2 ∧ k1 = k2 := by
  have ed : b1.data ++ (if k1 = 1 then "" else Nat.repr k1).data
          = b2.data ++ (if k2 = 1 then "" else Nat.repr k2).data := by
    have h := congrArg String.data e
    simp only [mkInst, String.data_append, List.append_assoc] at h
    exact List.append_cancel_left h
  obtain ⟨hbd, hsd⟩ := append_digit_cancel _ _ _ _
    (endsInDigit_getLast h1) (endsInDigit_getLast h2) (sfx_digits k1) (sfx_digits k2) ed
  refine ⟨String.ext hbd, ?_⟩
  by_cases hk1 : k1 = 1 <;> by_cases hk2 : k2 = 1
  · rw [hk1, hk2]
  · exfalso
    rw [if_pos hk1, if_neg hk2] at hsd
    exact repr_data_ne_nil k2 (by simpa using hsd.symm)
  · exfalso
    rw [if_neg hk1, if_pos hk2] at hsd
    exact repr_data_ne_nil k1 (by simpa using hsd)
  · rw [if_neg hk1, if_neg hk2] at hsd
    exact repr_injective (String.ext hsd)

/-! ### Pointwise description of the instance names and instantiation blocks -/

lemma instNamesAux_length :
    ∀ (bs : List String) (counts : String → Nat), (instNamesAux counts bs).length = bs.length := by
  intro bs
  induction bs with
  | nil => intro counts; rfl
  | cons b bs ih => intro counts; simp [instNamesAux, ih]

lemma instNames_length (blocks : List String) : (instNames blocks).length = blocks.length :=
  instNamesAux_length blocks (fun _ => 0)

lemma instNamesAux_getElem? :
    ∀ (bs : List String) (counts : String → Nat) (i : Nat),
      (instNamesAux counts bs)[i]? =
        (bs[i]?).map (fun b => mkInst b (counts b + (bs.take (i + 1)).count b)) := by
  intro bs
  induction bs with
  | nil => intro counts i; simp [instNamesAux]
  | cons b bs ih =>
    intro counts i
    cases i with
    | zero =>
      simp [instNamesAux, List.take_succ_cons, List.count_cons]
    | succ i =>
      simp only [instNamesAux, List.getElem?_cons_succ, List.take_succ_cons]
      rw [ih]
      cases hbs : bs[i]? with
      | none => simp
      | some c =>
        simp only [Option.map_some']
        refine congrArg (fun k => some (mkInst c k)) ?_
        rcases eq_or_ne c b with rfl | hne
        · simp [List.count_cons]
          omega
        · simp [List.count_cons, hne, Ne.symm hne]

lemma instNames_getElem? (blocks : List String) (i : Nat) :
    (instNames blocks)[i]? =
      (blocks[i]?).map (fun b => mkInst b ((blocks.take (i + 1)).count b)) := by
  rw [instNames, instNamesAux_getElem?]
  simp

lemma blockInstsAux_getElem? :
    ∀ (bs : List String) (counts : String → Nat) (i0 i : Nat),
      (blockInstsAux counts i0 bs)[i]? =
        (bs[i]?).map
          (fun b => BLOCK_TMPL b (mkInst b (counts b + (bs.take (i + 1)).count b)) (i0 + i)) := by
  intro bs
  induction bs with
  | nil => intro counts i0 i; simp [blockInstsAux]
  | cons b bs ih =>
    intro counts i0 i
    cases i with
    | zero =>
      simp [blockInstsAux, List.take_succ_cons, List.count_cons]
    | succ i =>
      simp only [blockInstsAux, List.getElem?_cons_succ, List.take_succ_cons]
      rw [ih]
      cases hbs : bs[i]? with
      | none => simp
      | some c =>
        simp only [Option.map_some']
        have harith : i0 + 1 + i = i0 + (i + 1) := by omega
        rcases eq_or_ne c b with rfl | hne
        · refine congrArg some ?_
          rw [harith]
          refine congrArg (fun k => BLOCK_TMPL c (mkInst c k) (i0 + (i + 1))) ?_
          simp [List.count_cons]
          omega
        · refine congrArg some ?_
          rw [harith]
          refine congrArg (fun k => BLOCK_TMPL c (mkInst c k) (i0 + (i + 1))) ?_
          simp [List.count_cons, hne, Ne.symm hne]

lemma blockInsts_getElem? (blocks : List String) (i : Nat) :
    (blockInsts blocks)[i]? =
      (blocks[i]?).map
        (fun b => BLOCK_TMPL b (mkInst b ((blocks.take (i + 1)).count b)) i) := by
  rw [blockInsts, blockInstsAux_getElem?]
  simp

lemma blockInstsAux_length :
    ∀ (bs : List String) (counts : String → Nat) (i0 : Nat),
      (blockInstsAux counts i0 bs).length = bs.length := by
  intro bs
  induction bs with
  | nil => intro counts i0; rfl
  | cons b bs ih => intro counts i0; simp [blockInstsAux, ih]

lemma blockInsts_length (blocks : List String) : (blockInsts blocks).length = blocks.length :=
  blockInstsAux_length blocks (fun _ => 0) 0

/-! ### The occurrence count grows strictly along duplicate occurrences -/

lemma count_take_lt (blocks : List String) (b : String) (i j : Nat) (hij : i < j)
    (hj : blocks[j]? = some b) :
    (blocks.take (i + 1)).count b < (blocks.take (j + 1)).count b := by
  have hsplit : blocks.take (i + 1) ++ (blocks.take (j + 1)).drop (i + 1) = blocks.take (j + 1) := by
    conv_rhs => rw [← List.take_append_drop (i + 1) (blocks.take (j + 1))]
    rw [List.take_take]
    congr 2
    omega
  have hmem : b ∈ (blocks.take (j + 1)).drop (i + 1) := by
    have hidx : ((blocks.take (j + 1)).drop (i + 1))[j - (i + 1)]? = some b := by
      rw [List.getElem?_drop]
      have : i + 1 + (j - (i + 1)) = j := by omega
      rw [this, List.getElem?_take, if_pos (by omega), hj]
    obtain ⟨hlt, hget⟩ := List.getElem?_eq_some.mp hidx
    exact hget ▸ List.getElem_mem hlt
  have hpos : 0 < ((blocks.take (j + 1)).drop (i + 1)).count b := List.count_pos_iff.mpr hmem
  calc (blocks.take (i + 1)).count b
      < (blocks.take (i + 1)).count b + ((blocks.take (j + 1)).drop (i + 1)).count b := by omega
  _ = (blocks.take (i + 1) ++ (blocks.take (j + 1)).drop (i + 1)).count b :=
      (List.count_append b _ _).symm
  _ = (blocks.take (j + 1)).count b := by rw [hsplit]

/-! ### Distinctness of instance names when no block name ends in a digit -/

lemma instNames_nodup (blocks : List String)
    (h3 : ∀ b ∈ blocks, endsInDigit b = false) : (instNames blocks).Nodup := by
  rw [List.nodup_iff_injective_getElem]
  rintro ⟨i, hi⟩ ⟨j, hj⟩ hEq
  simp only at hEq
  have hi' : i < blocks.length := by rwa [instNames_length] at hi
  have hj' : j < blocks.length := by rwa [instNames_length] at hj
  have hni : (instNames blocks)[i] = mkInst blocks[i] ((blocks.take (i + 1)).count blocks[i]) := by
    have h := instNames_getElem? blocks i
    rw [List.getElem?_eq_getElem hi, List.getElem?_eq_getElem hi'] at h
    simpa using h
  have hnj : (instNames blocks)[j] = mkInst blocks[j] ((blocks.take (j + 1)).count blocks[j]) := by
    have h := instNames_getElem? blocks j
    rw [List.getElem?_eq_getElem hj, List.getElem?_eq_getElem hj'] at h
    simpa using h
  rw [hni, hnj] at hEq
  obtain ⟨hb, hk⟩ := mkInst_inj (h3 _ (List.getElem_mem hi')) (h3 _ (List.getElem_mem hj')) hEq
  rcases Nat.lt_trichotomy i j with hlt | heq | hgt
  · exfalso
    have hcnt := count_take_lt blocks blocks[i] i j hlt
      (by rw [List.getElem?_eq_getElem hj', hb])
    rw [hb] at hk hcnt
    omega
  · exact Fin.ext heq
  · exfalso
    have hcnt := count_take_lt blocks blocks[j] j i hgt
      (by rw [List.getElem?_eq_getElem hi', hb])
    rw [hb] at hk
    omega

/-! ### Helper lemmas about `replaceLine`, `compare` and the anchor test -/

lemma countP_ne_zero_iff_mem (x : String) (l : List String) :
    l.countP (fun a => a == x) ≠ 0 ↔ x ∈ l := by
  rw [← Nat.pos_iff_ne_zero, List.countP_pos_iff]
  constructor
  · rintro ⟨a, ha, hax⟩
    rwa [show a = x from by simpa using hax] at ha
  · intro hx
    exact ⟨x, hx, by simp⟩

lemma replaceLine_nil_ins (a : String) : ∀ l : List String, replaceLine a [] l = l := by
  intro l
  induction l with
  | nil => rfl
  | cons x xs ih =>
    by_cases hx : x = a <;> simp [replaceLine, hx, ih]

lemma mem_replaceLine_of_mem (a : String) (ins : List String) :
    ∀ (l : List String) (x : String), x ∈ l → x ∈ replaceLine a ins l := by
  intro l
  induction l with
  | nil => intro x hx; simp at hx
  | cons y ys ih =>
    intro x hx
    rcases List.mem_cons.mp hx with rfl | hx
    · by_cases hy : x = a <;> simp [replaceLine, hy]
    · by_cases hy : y = a
      · simp only [replaceLine, if_pos hy]
        exact List.mem_cons_of_mem _ (List.mem_append_right _ (ih x hx))
      · simp only [replaceLine, if_neg hy]
        exact List.mem_cons_of_mem _ (ih x hx)

lemma mem_replaceLine_of_mem_ins (a : String) (ins : List String) :
    ∀ (l : List String) (x : String), a ∈ l → x ∈ ins → x ∈ replaceLine a ins l := by
  intro l
  induction l with
  | nil => intro x ha; simp at ha
  | cons y ys ih =>
    intro x ha hx
    by_cases hy : y = a
    · simp only [replaceLine, if_pos hy]
      exact List.mem_cons_of_mem _ (List.mem_append_left _ hx)
    · simp only [replaceLine, if_neg hy]
      rcases List.mem_cons.mp ha with rfl | ha
      · exact absurd rfl hy
      · exact List.mem_cons_of_mem _ (ih x ha hx)

lemma replaceLine_eq_flatMap (a : String) (ins : List String) :
    ∀ l : List String, replaceLine a ins l = l.flatMap (fun x => if x = a then x :: ins else [x]) := by
  intro l
  induction l with
  | nil => rfl
  | cons y ys ih =>
    by_cases hy : y = a <;> simp [replaceLine, hy, ih, List.flatMap_cons]

lemma compare_eq_nil (oot dest : List String) (h : ∀ l ∈ oot, l ∈ dest) :
    compare oot dest = [] := by
  rw [compare, List.filter_eq_nil_iff]
  intro a ha
  simp [List.elem_iff, h a ha, List.contains]

lemma mem_compare_of_not_mem {oot dest : List String} {x : String}
    (hx : x ∈ oot) (hnx : x ∉ dest) : x ∈ compare oot dest := by
  rw [compare, List.mem_filter]
  exact ⟨hx, by simp [List.contains, List.elem_iff, hnx]⟩

/-! ### `create_vfiles` succeeds on valid inputs -/

lemma create_vfiles_isOk (args : Args) (h1 : args.blocks ≠ [])
    (h2 : (args.blocks.length : Int) ≤ args.max_num_blocks) :
    ∃ v, create_vfiles args = Except.ok v := by
  rw [create_vfiles, if_neg (by simpa [List.length_eq_zero] using h1), if_neg (by omega)]
  exact ⟨_, rfl⟩

/-! ### The wait-encoded `os.system` return truncates to exit status 0 -/

lemma exit_trunc_os_system (s : Nat) : exit_trunc (os_system_ret s) = 0 :=
  Nat.mul_mod_left (s % 256) 256

/-! ### The loop output agrees with the spec-level `specBlocks` -/

lemma blockInsts_eq_specBlocks (blocks : List String) :
    blockInsts blocks = specBlocks blocks := by
  apply List.ext_getElem?
  intro n
  rw [blockInsts_getElem?]
  simp only [specBlocks, List.getElem?_map, List.getElem?_enum]
  cases blocks[n]? <;> simp

/-! ## Claim theorems -/

/-- C2: for every block list, entry `i` holding block name `b` receives the
instance name `inst_` + `b` + suffix, where the suffix is empty when this is the
first occurrence of `b` (its count in the first `i+1` entries is 1) and is the
decimal numeral of `k` when it is the `k`-th occurrence (`k ≥ 2`), so successive
duplicate occurrences get strictly increasing suffixes starting at 2. -/
theorem claim_C2_instance_suffixes (blocks : List String) (i : Nat) (b : String)
    (h : blocks[i]? = some b) :
    (instNames blocks)[i]? =
      some ("inst_" ++ b ++
        (if (blocks.take (i + 1)).count b = 1 then ""
         else Nat.repr ((blocks.take (i + 1)).count b))) := by
  rw [instNames_getElem?, h]
  rfl

/-- Witness for C2: in ["fft", "fft"] the second entry is the second occurrence
of "fft" and is named `inst_fft2`. -/
theorem claim_C2_witness :
    (instNames ["fft", "fft"])[1]? =
      some ("inst_" ++ "fft" ++
        (if ((["fft", "fft"] : List String).take 2).count "fft" = 1 then ""
         else Nat.repr (((["fft", "fft"] : List String).take 2).count "fft"))) :=
  claim_C2_instance_suffixes ["fft", "fft"] 1 "fft" rfl

/-- C1 (amended): for every block list of length between 1 and the configured
maximum, the rendered output has exactly one instantiation block per input
entry, in input order, with entry `i` wired to slot index `i`; and — provided no
block name ends in a decimal digit, without which first occurrences can collide
with suffixed duplicates — the generated instance names are pairwise
distinct. -/
theorem claim_C1_blocks_in_order_unique_names (blocks : List String) (maxN : Int)
    (h1 : 1 ≤ blocks.length) (h2 : (blocks.length : Int) ≤ maxN)
    (h3 : ∀ b ∈ blocks, endsInDigit b = false) :
    (blockInsts blocks).length = blocks.length ∧
    (∀ (i : Nat) (b : String), blocks[i]? = some b →
      (blockInsts blocks)[i]? =
        some (BLOCK_TMPL b (mkInst b ((blocks.take (i + 1)).count b)) i)) ∧
    (instNames blocks).Nodup := by
  refine ⟨blockInsts_length blocks, ?_, instNames_nodup blocks h3⟩
  intro i b h
  rw [blockInsts_getElem?, h]
  rfl

/-- Witness for C1: the block list ["fft", "fft", "fir"] (length 3, maximum 10,
no name ending in a digit). -/
theorem claim_C1_witness :
    (blockInsts ["fft", "fft", "fir"]).length = (["fft", "fft", "fir"] : List String).length ∧
    (∀ (i : Nat) (b : String), (["fft", "fft", "fir"] : List String)[i]? = some b →
      (blockInsts ["fft", "fft", "fir"])[i]? =
        some (BLOCK_TMPL b
          (mkInst b (((["fft", "fft", "fir"] : List String).take (i + 1)).count b)) i)) ∧
    (instNames ["fft", "fft", "fir"]).Nodup :=
  claim_C1_blocks_in_order_unique_names ["fft", "fft", "fir"] 10 (by decide) (by decide)
    (by decide)

/-- Counterexample to C1 as stated: the block list ["fft2", "fft", "fft"] has
length 3 ≤ 10, yet the first occurrence of "fft2" and the second occurrence of
"fft" both get the instance name `inst_fft2`, so the names are not pairwise
distinct. -/
theorem claim_C1_counterexample :
    (1 ≤ (["fft2", "fft", "fft"] : List String).length ∧
      ((["fft2", "fft", "fft"] : List String).length : Int) ≤ 10) ∧
    instNames ["fft2", "fft", "fft"] = ["inst_fft2", "inst_fft", "inst_fft2"] ∧
    ¬ (instNames ["fft2", "fft", "fft"]).Nodup := by
  refine ⟨⟨by decide, by decide⟩, by decide, by decide⟩

/-- C8: on a valid block list, `create_vfiles` renders the header with
NUM_CE = the slot count (the maximum when filling with FIFOs is requested, the
number of blocks otherwise), followed by one instantiation block per named
entry (substituting block name, occurrence-counted instance name and slot
index), followed — exactly when filling is requested — by the generate loop
that fills the remaining slots, running from the number of blocks up to
NUM_CE - 1, with the fixed `noc_block_axi_fifo_loopback` module. -/
theorem claim_C8_render_structure (args : Args) (h1 : args.blocks ≠ [])
    (h2 : (args.blocks.length : Int) ≤ args.max_num_blocks) :
    create_vfiles args = Except.ok
      (HEADER_TMPL
          (if args.fill_with_fifos then args.max_num_blocks else (args.blocks.length : Int))
        ++ String.join (specBlocks args.blocks)
        ++ (if args.fill_with_fifos then FILL_FIFO_TMPL args.blocks.length else "")) := by
  rw [create_vfiles, if_neg (by simpa [List.length_eq_zero] using h1), if_neg (by omega)]
  cases hf : args.fill_with_fifos
  · simp [hf, String.append_empty, blockInsts_eq_specBlocks]
  · simp [hf, blockInsts_eq_specBlocks]

/-- Witness for C8: one block, maximum 3, filling requested. -/
theorem claim_C8_witness :
    create_vfiles ⟨none, 3, true, none, "x310", none, false, ["fft"]⟩ = Except.ok
      (HEADER_TMPL (3 : Int)
        ++ String.join (specBlocks ["fft"])
        ++ FILL_FIFO_TMPL (["fft"] : List String).length) :=
  claim_C8_render_structure ⟨none, 3, true, none, "x310", none, false, ["fft"]⟩
    (by decide) (by decide)

/-- C3: when the block list is empty or longer than the configured maximum,
the run prints an error message and exits with status 1 before the generated
file is written and before the destination source-list file is touched. -/
theorem claim_C3_validation_failure (w : World) (args : Args)
    (h : args.blocks = [] ∨ (args.blocks.length : Int) > args.max_num_blocks) :
    (mainModel w args).exitCode = some 1 ∧
    (mainModel w args).outWrite = none ∧
    (mainModel w args).destLines = w.destLines ∧
    (mainModel w args).errMsg ≠ none := by
  have hcv : ∃ m, create_vfiles args = Except.error m := by
    rcases h with h | h
    · exact ⟨_, by rw [create_vfiles, if_pos (by simp [h])]⟩
    · by_cases h0 : args.blocks.length = 0
      · exact ⟨_, by rw [create_vfiles, if_pos h0]⟩
      · exact ⟨_, by rw [create_vfiles, if_neg h0, if_pos h]⟩
  obtain ⟨m, hm⟩ := hcv
  simp [mainModel, hm]

/-- Witness for C3: an empty block list. -/
theorem claim_C3_witness :
    (mainModel ⟨[], fun _ => [], fun _ => [], true, 0, "/s", "/c"⟩
        ⟨none, 10, false, none, "x310", none, false, []⟩).exitCode = some 1 ∧
    (mainModel ⟨[], fun _ => [], fun _ => [], true, 0, "/s", "/c"⟩
        ⟨none, 10, false, none, "x310", none, false, []⟩).outWrite = none ∧
    (mainModel ⟨[], fun _ => [], fun _ => [], true, 0, "/s", "/c"⟩
        ⟨none, 10, false, none, "x310", none, false, []⟩).destLines = [] ∧
    (mainModel ⟨[], fun _ => [], fun _ => [], true, 0, "/s", "/c"⟩
        ⟨none, 10, false, none, "x310", none, false, []⟩).errMsg ≠ none :=
  claim_C3_validation_failure _ _ (Or.inl rfl)

/-- C4 names a code bug: `checkdir_v` prints `[ERROR] No verilog files found in
the given directory` but then calls `exit(0)`, so this validation failure
terminates the process with exit status 0, not 1; evaluated here both on
`checkdir_v` itself and on a whole run whose include directory has no Verilog
files. -/
theorem claim_C4_checkdir_exit_zero :
    checkdir_v [] = Except.error 0 ∧
    (mainModel ⟨["RFNOC_OOT_SRCS = \\"], fun _ => [], fun _ => [], true, 0, "/s", "/c"⟩
        ⟨some ["/oot/dir"], 10, false, none, "x310", none, false, ["fft"]⟩).exitCode = some 0 :=
  ⟨rfl, rfl⟩

/-- C5 (amended): when the include directory's entries are not yet present in
the destination list file (its `$(addprefix <dir>, \` anchor is absent and none
of its lines occur) and the `RFNOC_OOT_SRCS = \` anchor is present, the entries
are inserted immediately after every occurrence of the anchor line — Python's
`str.replace` replaces all occurrences, not only the last — and nowhere else. -/
theorem claim_C5_insert_after_each_anchor (d : String) (oot dest : List String)
    (h1 : dest.countP (fun l => l == dirAnchor d) = 0)
    (h2 : dest.countP (fun l => l == srcsAnchor) ≠ 0)
    (h3 : ∀ l ∈ oot, l ∉ dest) :
    append_one d oot dest =
      dest.flatMap (fun l => if l = srcsAnchor then l :: oot else [l]) := by
  rw [append_one, if_neg (by simp [h1]), if_neg h2]
  exact replaceLine_eq_flatMap srcsAnchor oot dest

/-- Witness for C5: one anchor line, one new entry. -/
theorem claim_C5_witness :
    append_one "d" ["SRC1"] [srcsAnchor, "x"] =
      List.flatMap [srcsAnchor, "x"] (fun l => if l = srcsAnchor then l :: ["SRC1"] else [l]) :=
  claim_C5_insert_after_each_anchor "d" ["SRC1"] [srcsAnchor, "x"]
    (by decide) (by decide) (by decide)

/-- Counterexample to C5 as stated: with the anchor line occurring twice, the
new entry is spliced in after both occurrences, so the result differs from
inserting only after the last occurrence. -/
theorem claim_C5_counterexample :
    append_one "d" ["EXTRA"] [srcsAnchor, "x", srcsAnchor] =
      [srcsAnchor, "EXTRA", "x", srcsAnchor, "EXTRA"] ∧
    append_one "d" ["EXTRA"] [srcsAnchor, "x", srcsAnchor] ≠
      [srcsAnchor, "x", srcsAnchor, "EXTRA"] :=
  ⟨rfl, by decide⟩

/-- C6 (amended): re-running the include-merge step is a no-op provided the
destination list file contains the include directory's `$(addprefix <dir>, \`
anchor line — the presence test the code actually uses; the second run then
finds every line of the source list already present and splices in nothing. -/
theorem claim_C6_idempotent_with_anchor (d : String) (oot dest : List String)
    (h : dirAnchor d ∈ dest) :
    append_one d oot (append_one d oot dest) = append_one d oot dest := by
  have h1 : dest.countP (fun l => l == dirAnchor d) ≠ 0 := (countP_ne_zero_iff_mem _ _).mpr h
  have hfirst : append_one d oot dest = replaceLine (dirAnchor d) (compare oot dest) dest := by
    rw [append_one, if_pos h1]
  have hmem' : dirAnchor d ∈ replaceLine (dirAnchor d) (compare oot dest) dest :=
    mem_replaceLine_of_mem _ _ dest _ h
  have h1' : (replaceLine (dirAnchor d) (compare oot dest) dest).countP
      (fun l => l == dirAnchor d) ≠ 0 := (countP_ne_zero_iff_mem _ _).mpr hmem'
  have hcmp : compare oot (replaceLine (dirAnchor d) (compare oot dest) dest) = [] := by
    apply compare_eq_nil
    intro l hl
    by_cases hld : l ∈ dest
    · exact mem_replaceLine_of_mem _ _ dest l hld
    · exact mem_replaceLine_of_mem_ins _ _ dest l h (mem_compare_of_not_mem hl hld)
  rw [hfirst, append_one, if_pos h1', hcmp, replaceLine_nil_ins]

/-- Witness for C6: a destination containing the dir anchor. -/
theorem claim_C6_witness :
    append_one "d" ["a"] (append_one "d" ["a"] [dirAnchor "d"]) =
      append_one "d" ["a"] [dirAnchor "d"] :=
  claim_C6_idempotent_with_anchor "d" ["a"] [dirAnchor "d"] (by decide)

/-- Counterexample to C6 as stated: the destination produced by a first run
contains the include directory's entry "SRC1" but not its dir anchor; a second
run inserts the entry again, changing the file. -/
theorem claim_C6_counterexample :
    append_one "d" ["SRC1"] [srcsAnchor] = [srcsAnchor, "SRC1"] ∧
    append_one "d" ["SRC1"] [srcsAnchor, "SRC1"] = [srcsAnchor, "SRC1", "SRC1"] ∧
    ([srcsAnchor, "SRC1", "SRC1"] : List String) ≠ [srcsAnchor, "SRC1"] :=
  ⟨rfl, rfl, by decide⟩

/-- C7 (amended): when the destination list file contains no anchor line at
all — neither the `$(addprefix <dir>, \` line nor the `RFNOC_OOT_SRCS = \`
line — `append_item_into_file` reports the missing pattern and leaves the
destination unchanged; the entries are not appended at the end (that behaviour
belongs to the unused `append_re_line_sequence`). -/
theorem claim_C7_no_anchor_unchanged (d : String) (oot dest : List String)
    (h1 : dest.countP (fun l => l == dirAnchor d) = 0)
    (h2 : dest.countP (fun l => l == srcsAnchor) = 0) :
    append_one d oot dest = dest := by
  rw [append_one, if_neg (by simp [h1]), if_pos h2]

/-- Witness for C7: a destination with no anchor line. -/
theorem claim_C7_witness :
    append_one "d" ["a"] ["x"] = ["x"] :=
  claim_C7_no_anchor_unchanged "d" ["a"] ["x"] (by decide) (by decide)

/-- Counterexample to C7 as stated: with no anchor line, the result is the
unchanged destination, not the destination with the new entries appended at
the end. -/
theorem claim_C7_counterexample :
    append_one "d" ["a"] ["x"] = ["x"] ∧ append_one "d" ["a"] ["x"] ≠ ["x", "a"] :=
  ⟨rfl, by decide⟩

/-- C9 (amended): the build step changes into the device-specific build
directory, runs the external build command on the resolved target (the
explicit `--target` when given, otherwise the per-device default), appends
`GUI=1` when requested, then changes to the script's own directory
(`cwd = get_scriptpath()` in the source — not necessarily the directory that
was current before the build step).  The process exit status is `os.system`'s
wait-encoded return truncated mod 256 by `exit(main())`: for an external
command terminating normally it is always 0, so the command's exit status is
not propagated — in particular a nonzero command status never becomes the
program's exit status. -/
theorem claim_C9_build_step (w : World) (args : Args) (tdir t : String)
    (hdir : w.buildDirExists = true)
    (hdev : device_dict (strLower args.device) = some tdir)
    (ht : dtarget args = some t)
    (hb : args.blocks ≠ [])
    (hm : (args.blocks.length : Int) ≤ args.max_num_blocks)
    (hout : args.outfile = none)
    (hinc : args.include_dir = none) :
    build w args tdir =
      BuildOutcome.ran (w.scriptpath ++ "/../../top/" ++ tdir)
        ("source ./setupenv.sh && make " ++ t ++ (if args.GUI then " GUI=1" else ""))
        w.scriptpath (os_system_ret w.cmdStatus) ∧
    (args.target = none → List.lookup args.device default_trgt = some t) ∧
    (∀ s, args.target = some s → t = s) ∧
    (mainModel w args).exitCode = some 0 ∧
    (w.cmdStatus ≠ 0 → (mainModel w args).exitCode ≠ some w.cmdStatus) ∧
    (mainModel w args).finalCwd = w.scriptpath := by
  have hbuild : build w args tdir = BuildOutcome.ran (w.scriptpath ++ "/../../top/" ++ tdir)
      ("source ./setupenv.sh && make " ++ t ++ (if args.GUI then " GUI=1" else ""))
      w.scriptpath (os_system_ret w.cmdStatus) := by
    cases hg : args.GUI <;> simp [build, hdir, ht, hg, String.append_empty]
  obtain ⟨v, hv⟩ := create_vfiles_isOk args hb hm
  have hexit : (mainModel w args).exitCode = some 0 := by
    simp [mainModel, hv, file_generator, hdev, hout, append_item_into_file, hinc, hbuild,
      exit_trunc_os_system]
  refine ⟨hbuild, ?_, ?_, hexit, ?_, ?_⟩
  · intro htn
    simp only [dtarget, htn] at ht
    exact ht
  · intro s hs
    simp only [dtarget, hs] at ht
    exact (Option.some_inj.mp ht).symm
  · intro hs hc
    rw [hexit] at hc
    exact hs (Option.some_inj.mp hc).symm
  · simp [mainModel, hv, file_generator, hdev, hout, append_item_into_file, hinc, hbuild]

/-- Witness for C9: device x310, no explicit target, no GUI, external command
exit status 5; `os.system` returns 1280 and the process exits 0. -/
theorem claim_C9_witness :
    build ⟨[], fun _ => [], fun _ => ["a.v"], true, 5, "/s", "/s"⟩
        ⟨none, 10, false, none, "x310", none, false, ["fft"]⟩ "x300" =
      BuildOutcome.ran "/s/../../top/x300" "source ./setupenv.sh && make X310_RFNOC_HG"
        "/s" 1280 ∧
    ((none : Option String) = none → List.lookup "x310" default_trgt = some "X310_RFNOC_HG") ∧
    (∀ s : String, (none : Option String) = some s → "X310_RFNOC_HG" = s) ∧
    (mainModel ⟨[], fun _ => [], fun _ => ["a.v"], true, 5, "/s", "/s"⟩
        ⟨none, 10, false, none, "x310", none, false, ["fft"]⟩).exitCode = some 0 ∧
    ((5 : Nat) ≠ 0 →
      (mainModel ⟨[], fun _ => [], fun _ => ["a.v"], true, 5, "/s", "/s"⟩
        ⟨none, 10, false, none, "x310", none, false, ["fft"]⟩).exitCode ≠ some 5) ∧
    (mainModel ⟨[], fun _ => [], fun _ => ["a.v"], true, 5, "/s", "/s"⟩
        ⟨none, 10, false, none, "x310", none, false, ["fft"]⟩).finalCwd = "/s" :=
  claim_C9_build_step ⟨[], fun _ => [], fun _ => ["a.v"], true, 5, "/s", "/s"⟩
    ⟨none, 10, false, none, "x310", none, false, ["fft"]⟩ "x300" "X310_RFNOC_HG"
    rfl rfl rfl (by decide) (by decide) rfl rfl

/-- Counterexample to C9 as stated, on both counts: with the external build
command exiting with status 5, `os.system` returns the wait-encoded 1280 and
`exit(main())` truncates it mod 256, so the program exits 0, not 5 — the
external command's exit status is not the program's; and a run started in
/home/user with the script in /opt/scripts finishes in /opt/scripts, not in
the directory that was current before the build step. -/
theorem claim_C9_counterexample :
    (mainModel ⟨[], fun _ => [], fun _ => ["a.v"], true, 5, "/opt/scripts", "/home/user"⟩
        ⟨none, 10, false, none, "x310", none, false, ["fft"]⟩).exitCode = some 0 ∧
    (⟨[], fun _ => [], fun _ => ["a.v"], true, 5, "/opt/scripts", "/home/user"⟩ : World).cmdStatus
      = 5 ∧
    ((some 0 : Option Nat) ≠ some 5) ∧
    (mainModel ⟨[], fun _ => [], fun _ => ["a.v"], true, 5, "/opt/scripts", "/home/user"⟩
        ⟨none, 10, false, none, "x310", none, false, ["fft"]⟩).finalCwd = "/opt/scripts" ∧
    (⟨[], fun _ => [], fun _ => ["a.v"], true, 5, "/opt/scripts", "/home/user"⟩ : World).startCwd
      = "/home/user" ∧
    ("/opt/scripts" : String) ≠ "/home/user" :=
  ⟨rfl, rfl, by decide, rfl, rfl, by decide⟩

/-- C10: the device-to-build-directory dictionary accepts "e300" (mapping it to
"e300"), but the default-target dictionary in `dtarget` has no entry for
"e300", so with no explicit target the lookup raises a KeyError (modelled as
`none`); for x300, x310 and e310 the default-target lookup succeeds. -/
theorem claim_C10_device_target_maps :
    device_dict "e300" = some "e300" ∧
    dtarget ⟨none, 10, false, none, "e300", none, false, []⟩ = none ∧
    dtarget ⟨none, 10, false, none, "x300", none, false, []⟩ = some "X300_RFNOC_HG" ∧
    dtarget ⟨none, 10, false, none, "x310", none, false, []⟩ = some "X310_RFNOC_HG" ∧
    dtarget ⟨none, 10, false, none, "e310", none, false, []⟩ = some "E310_RFNOC_HLS" :=
  ⟨rfl, rfl, rfl, rfl, rfl⟩

end RfnocMake
